import Mathlib

/-!
Shallow embedding of the J-League data viewer's normalization and
league-table aggregation pipeline (`src/app3_st.py`), covering:

* `normalize_j_name` (league/team name normalization, lines 148-159)
  together with the `LEAGUE_NAME_MAPPING` / `TEAM_NAME_MAPPING` tables and
  the self-mapping backfill loop (lines 51-143);
* `parse_match_date` (lines 230-255);
* `create_point_aggregate_df` (lines 257-309): score gate, goal parsing,
  date parsing, home/away ledger expansion, date sort and per-team
  cumulative sums;
* `calculate_recent_form` (lines 324-333);
* the rank-over-time computation of the 順位変動グラフ branch
  (lines 639-666): per-checkpoint standings via `groupby('チーム').max()`,
  the `Weighted_Score` composite and `rank(method='min', ascending=False)`.

Strings are modelled as Lean `String`s (lists of characters); pandas
DataFrames become lists of records; machine floats of the weighted score
become `Int` (all values arising here are integers far below 2^53, where
IEEE double arithmetic is exact).
-/

/-- NFKC normalization (`unicodedata.normalize('NFKC', ...)`) modelled
character-wise on the character repertoire this dataset exercises:
full-width Latin capitals J/F/C/V, full-width digits, the ideographic
space U+3000 and full-width parentheses fold to their ASCII forms; all
other characters (ASCII, kanji, katakana) are NFKC-fixed and map to
themselves. -/
def nfkcChar (c : Char) : Char :=
  if c = '　' then ' '
  else if c = 'Ｊ' then 'J'
  else if c = 'Ｆ' then 'F'
  else if c = 'Ｃ' then 'C'
  else if c = 'Ｖ' then 'V'
  else if c = '（' then '('
  else if c = '）' then ')'
  else if c = '０' then '0'
  else if c = '１' then '1'
  else if c = '２' then '2'
  else if c = '３' then '3'
  else if c = '４' then '4'
  else if c = '５' then '5'
  else if c = '６' then '6'
  else if c = '７' then '7'
  else if c = '８' then '8'
  else if c = '９' then '9'
  else c

/-- Characters stripped by Python's `str.strip()` (whitespace; the
ideographic space U+3000 is included, though NFKC has already folded it
away at every call site). -/
def isSpaceChar (c : Char) : Bool :=
  c = ' ' || c = '\t' || c = '\n' || c = '\r' || c = '　'

/-- Python `.replace('J', 'J')` of line 152. The source literally
replaces an ASCII J by an ASCII J (both arguments are the byte 0x4a),
so this is the identity scan. -/
def replJ : List Char → List Char
  | [] => []
  | c :: s => (if c = 'J' then 'J' else c) :: replJ s

/-- Python `.replace('FC', 'FC')` of line 152: both arguments are ASCII,
so the left-to-right non-overlapping replacement rewrites each occurrence
of FC by itself. -/
def replFChalf : List Char → List Char
  | [] => []
  | [c] => [c]
  | c :: d :: s =>
    if c = 'F' ∧ d = 'C' then 'F' :: 'C' :: replFChalf s
    else c :: replFChalf (d :: s)

/-- Python `.replace('F・C', 'FC')` of line 152 (the middle dot is
U+30FB): left-to-right non-overlapping replacement of F・C by FC. -/
def replFdotC : List Char → List Char
  | [] => []
  | [c] => [c]
  | [c, d] => [c, d]
  | c :: d :: e :: s =>
    if c = 'F' ∧ d = '・' ∧ e = 'C' then 'F' :: 'C' :: replFdotC s
    else c :: replFdotC (d :: e :: s)

/-- Python `.replace('　', ' ')` of line 153 (ideographic space U+3000 to
ASCII space); a single-character replacement is a character map. -/
def replIdeoSpace : List Char → List Char
  | [] => []
  | c :: s => (if c = '　' then ' ' else c) :: replIdeoSpace s

/-- Removal of a maximal run of trailing whitespace, the right half of
Python's `str.strip()`. -/
def stripTrailing : List Char → List Char
  | [] => []
  | c :: rest =>
    let r := stripTrailing rest
    if r = [] && isSpaceChar c then [] else c :: r

/-- Python `str.strip()`: drop leading and trailing whitespace. -/
def pyStrip (l : List Char) : List Char :=
  stripTrailing (l.dropWhile isSpaceChar)

/-- Character-level normalization pipeline of lines 151-153: NFKC, the
three manual substitutions, ideographic-space replacement and strip. -/
def foldName (l : List Char) : List Char :=
  pyStrip (replIdeoSpace (replFdotC (replFChalf (replJ (l.map nfkcChar)))))

/-- String-level wrapper of `foldName`. -/
def foldStr (s : String) : String :=
  String.mk (foldName s.data)

/-- LEAGUE_NAME_MAPPING of lines 51-66, in source order. -/
def LEAGUE_NAME_MAPPING : List (String × String) :=
  [("明治安田J1リーグ", "J1"),
   ("明治安田生命J1リーグ", "J1"),
   ("明治安田J1", "J1"),
   ("J1", "J1"),
   ("明治安田J2リーグ", "J2"),
   ("明治安田生命J2リーグ", "J2"),
   ("明治安田J2", "J2"),
   ("J2", "J2"),
   ("明治安田J3リーグ", "J3"),
   ("明治安田生命J3リーグ", "J3"),
   ("明治安田J3", "J3"),
   ("J3", "J3"),
   ("ルヴァンカップ", "ルヴァンカップ"),
   ("JリーグYBCルヴァンカップ", "ルヴァンカップ")]

/-- TEAM_NAME_MAPPING literal of lines 71-139, in source order.  The
Python dict literal repeats the key 岐阜 (lines 119 and 134) with the
same value, so keeping both pairs leaves lookup semantics unchanged
(first match wins in a `List.lookup`, last assignment wins in the dict;
the values agree). -/
def TEAM_NAME_MAPPING_BASE : List (String × String) :=
  [("浦和", "浦和レッズ"),
   ("鹿島", "鹿島アントラーズ"),
   ("横浜FM", "横浜F・マリノス"),
   ("FC東京", "FC東京"),
   ("F東京", "FC東京"),
   ("柏", "柏レイソル"),
   ("神戸", "ヴィッセル神戸"),
   ("G大阪", "ガンバ大阪"),
   ("C大阪", "セレッソ大阪"),
   ("名古屋", "名古屋グランパス"),
   ("札幌", "北海道コンサドーレ札幌"),
   ("広島", "サンフレッチェ広島"),
   ("鳥栖", "サガン鳥栖"),
   ("川崎F", "川崎フロンターレ"),
   ("湘南", "湘南ベルマーレ"),
   ("新潟", "アルビレックス新潟"),
   ("京都", "京都サンガF.C."),
   ("磐田", "ジュビロ磐田"),
   ("福岡", "アビスパ福岡"),
   ("横浜C", "横浜FC"),
   ("東京V", "東京ヴェルディ"),
   ("清水", "清水エスパルス"),
   ("大宮", "大宮アルディージャ"),
   ("町田", "FC町田ゼルビア"),
   ("仙台", "ベガルタ仙台"),
   ("秋田", "ブラウブリッツ秋田"),
   ("山形", "モンテディオ山形"),
   ("水戸", "水戸ホーリーホック"),
   ("栃木", "栃木SC"),
   ("群馬", "ザスパ群馬"),
   ("千葉", "ジェフユナイテッド千葉"),
   ("甲府", "ヴァンフォーレ甲府"),
   ("金沢", "ツエーゲン金沢"),
   ("岡山", "ファジアーノ岡山"),
   ("山口", "レノファ山口FC"),
   ("徳島", "徳島ヴォルティス"),
   ("愛媛", "愛媛FC"),
   ("長崎", "V・ファーレン長崎"),
   ("熊本", "ロアッソ熊本"),
   ("大分", "大分トリニータ"),
   ("岩手", "いわてグルージャ盛岡"),
   ("福島", "福島ユナイテッドFC"),
   ("YS横浜", "Y.S.C.C.横浜"),
   ("相模原", "SC相模原"),
   ("松本", "松本山雅FC"),
   ("富山", "カターレ富山"),
   ("沼津", "アスルクラロ沼津"),
   ("岐阜", "FC岐阜"),
   ("鳥取", "ガイナーレ鳥取"),
   ("讃岐", "カマタマーレ讃岐"),
   ("今治", "FC今治"),
   ("北九州", "ギラヴァンツ北九州"),
   ("琉球", "FC琉球"),
   ("宮崎", "テゲバジャーロ宮崎"),
   ("鹿児島", "鹿児島ユナイテッドFC"),
   ("八戸", "ヴァンラーレ八戸"),
   ("奈良", "奈良クラブ"),
   ("長野", "AC長野パルセイロ"),
   ("高知", "高知ユナイテッドSC"),
   ("いわき", "いわきFC"),
   ("藤枝", "藤枝MYFC"),
   ("ザスパクサツ群馬", "ザスパ群馬"),
   ("岐阜", "FC岐阜"),
   ("カマタマーレサヌキ", "カマタマーレ讃岐"),
   ("Y.S.C.C.横浜", "Y.S.C.C.横浜"),
   ("栃木C", "栃木シティ"),
   ("栃木SC", "栃木SC")]

/-- Backfill loop of lines 141-143: every canonical value that is not
already a key is added as a self-mapping.  Appending the self-pairs gives
the same lookup function as the Python dict insertions (existing keys are
untouched, new keys map to themselves). -/
def TEAM_NAME_MAPPING : List (String × String) :=
  TEAM_NAME_MAPPING_BASE ++
    ((TEAM_NAME_MAPPING_BASE.map Prod.snd).filter
      (fun v => (TEAM_NAME_MAPPING_BASE.lookup v).isNone)).map (fun v => (v, v))

/-- The normalization function `normalize_j_name` of lines 148-159: fold
the characters, then try the league table, then the team table, falling
back to the folded string.  (The Python `isinstance(name, str)` guard
returns non-string input unchanged; in the embedding every input is a
string, and the function is total.) -/
def normalize_j_name (name : String) : String :=
  let normalized := foldStr name
  match LEAGUE_NAME_MAPPING.lookup normalized with
  | some v => v
  | none => (TEAM_NAME_MAPPING.lookup normalized).getD normalized

/-- Decimal digits as matched by Python's `re` class `\d` on `str`
(any Unicode decimal digit), modelled for the repertoire exercised here:
ASCII digits and the full-width digits U+FF10..U+FF19. -/
def isPyDigit (c : Char) : Bool :=
  c.isDigit || (65296 ≤ c.toNat && c.toNat ≤ 65305)

/-- Numeric value of a digit accepted by `isPyDigit`. -/
def digitVal (c : Char) : Nat :=
  if c.isDigit then c.toNat - 48 else c.toNat - 65296

/-- Auxiliary scan of `re.sub(r'\(.*?\)', '', ...)`: given the text after
an opening parenthesis, find the first closing parenthesis that is not
preceded by a newline (regex `.` does not cross a newline) and return the
remainder after it. -/
def afterCloseParen (l : List Char) : Option (List Char) :=
  match l.dropWhile (fun d => d ≠ ')' && d ≠ '\n') with
  | ')' :: t => some t
  | _ => none

/-- Fuel-driven body of the parenthesized-group removal; the fuel is an
upper bound on the number of steps (one character or one group is
consumed per step), so `length l` fuel always suffices. -/
def removeParensAux : Nat → List Char → List Char
  | 0, s => s
  | _ + 1, [] => []
  | fuel + 1, c :: rest =>
    if c = '(' then
      match afterCloseParen rest with
      | some rest2 => removeParensAux fuel rest2
      | none => c :: removeParensAux fuel rest
    else c :: removeParensAux fuel rest

/-- Python `re.sub(r'\(.*?\)', '', date_str)` of line 238: delete every
non-greedy parenthesized group, scanning left to right. -/
def removeParens (l : List Char) : List Char :=
  removeParensAux l.length l

/-- Match `\d{1,2}` followed by a literal slash at the head of the list,
returning the numeric value and the remainder.  The greedy two-digit
alternative and the one-digit alternative are mutually exclusive because
a slash is not a digit, so no backtracking across this choice is
possible. -/
def grabNumSlash (l : List Char) : Option (Nat × List Char) :=
  match l with
  | a :: b :: c :: rest =>
    if isPyDigit a && isPyDigit b && c = '/' then
      some (digitVal a * 10 + digitVal b, rest)
    else if isPyDigit a && b = '/' then some (digitVal a, c :: rest)
    else none
  | [a, b] => if isPyDigit a && b = '/' then some (digitVal a, []) else none
  | _ => none

/-- Match a trailing `\d{1,2}` (greedy) at the head of the list. -/
def grabNumEnd (l : List Char) : Option Nat :=
  match l with
  | a :: b :: _ =>
    if isPyDigit a && isPyDigit b then some (digitVal a * 10 + digitVal b)
    else if isPyDigit a then some (digitVal a)
    else none
  | [a] => if isPyDigit a then some (digitVal a) else none
  | [] => none

/-- Attempt to match `\d{1,2}/\d{1,2}/\d{1,2}` at the head of the list. -/
def tryDateAt (l : List Char) : Option (Nat × Nat × Nat) :=
  match grabNumSlash l with
  | some (y, r1) =>
    match grabNumSlash r1 with
    | some (m, r2) =>
      match grabNumEnd r2 with
      | some d => some (y, m, d)
      | none => none
    | none => none
  | none => none

/-- Leftmost match of `re.search(r'(\d{1,2}/\d{1,2}/\d{1,2})', ...)` of
line 239: try each start position left to right. -/
def findDateCore : List Char → Option (Nat × Nat × Nat)
  | [] => none
  | c :: rest =>
    match tryDateAt (c :: rest) with
    | some x => some x
    | none => findDateCore rest

/-- Gregorian leap-year rule (calendar validity check performed by
`pd.to_datetime`). -/
def isLeapYear (y : Nat) : Bool :=
  (y % 4 = 0 && y % 100 ≠ 0) || y % 400 = 0

/-- Days in a month of a given year. -/
def daysInMonth (y m : Nat) : Nat :=
  if m = 2 then (if isLeapYear y then 29 else 28)
  else if m = 4 || m = 6 || m = 9 || m = 11 then 30
  else 31

/-- Encoding of a calendar date as a natural number; within valid dates
the numeric order is the chronological order. -/
def encodeDate (y m d : Nat) : Nat :=
  y * 10000 + m * 100 + d

/-- The date parser `parse_match_date` of lines 230-255: remove
parenthesized annotations, strip, search for a `\d{1,2}/\d{1,2}/\d{1,2}`
core, interpret it with `pd.to_datetime(..., format='%y/%m/%d',
errors='coerce')` (two-digit years 00-68 mean 2000-2068, 69-99 mean
1969-1999; an invalid calendar date coerces to NaT), and reject a parsed
year different from the supplied year.  `none` models NaT. -/
def parse_match_date (dateStr : String) (year : Nat) : Option Nat :=
  let cleaned := pyStrip (removeParens dateStr.data)
  match findDateCore cleaned with
  | none => none
  | some (yy, mm, dd) =>
    let y := if yy ≤ 68 then 2000 + yy else 1900 + yy
    if 1 ≤ mm && mm ≤ 12 && 1 ≤ dd && dd ≤ daysInMonth y mm && y = year then
      some (encodeDate y mm dd)
    else none

/-- One row of the scraped schedule table (the columns
大会・試合日・ホーム・スコア・アウェイ used by
`create_point_aggregate_df`; kickoff/stadium/TV columns are dropped
upstream and never read). -/
structure ScheduleRow where
  taikai : String
  matchDate : String
  home : String
  away : String
  score : String
deriving DecidableEq

/-- Python `.str.replace('ー', '-')` of line 266 (the katakana prolonged
sound mark U+30FC used as a dash on the source site, replaced by an ASCII
hyphen); a single-character replacement is a character map. -/
def replChoon : List Char → List Char
  | [] => []
  | c :: s => (if c = 'ー' then '-' else c) :: replChoon s

/-- Cleaned score string of line 266: `astype(str)`, dash replacement and
strip. -/
def cleanScore (s : String) : List Char :=
  pyStrip (replChoon s.data)

/-- Decomposition underlying the score gate
`str.contains(r'^\d+-\d+$', na=False)` of line 267 and the
`str.split('-', expand=True)` of line 273: a string passes the gate
exactly when it splits as nonempty digits, one hyphen, nonempty digits
(digits contain no hyphen, so the split is unique and two-part). -/
def splitScore (l : List Char) : Option (List Char × List Char) :=
  let d1 := l.takeWhile isPyDigit
  match l.dropWhile isPyDigit with
  | '-' :: d2 =>
    if d1 ≠ [] && d2 ≠ [] && d2.all isPyDigit then some (d1, d2) else none
  | _ => none

/-- The score-format gate of line 267. -/
def scoreGate (s : String) : Bool :=
  (splitScore (cleanScore s)).isSome

/-- Numeric value of a nonempty list of ASCII digits. -/
def digitsToNat (l : List Char) : Nat :=
  l.foldl (fun acc c => 10 * acc + (c.toNat - 48)) 0

/-- Model of `pd.to_numeric(..., errors='coerce')` of lines 274-275 on
the strings reachable here (substrings of gate-passing scores, hence
nonempty runs of Unicode decimal digits): the pandas C parser accepts
only ASCII numerals, so an ASCII digit string parses to its value and a
string containing a full-width digit coerces to NaN (`none`). -/
def toNumericNat (l : List Char) : Option Nat :=
  if l ≠ [] && l.all Char.isDigit then some (digitsToNat l) else none

/-- Goal columns 得点H/得点A of lines 273-275: split the cleaned score on
the hyphen, parse each side with `to_numeric`, and `fillna(0)`. -/
def rowGoals (r : ScheduleRow) : Nat × Nat :=
  match splitScore (cleanScore r.score) with
  | some (d1, d2) => ((toNumericNat d1).getD 0, (toNumericNat d2).getD 0)
  | none => (0, 0)

/-- Rows surviving the score gate of line 267. -/
def gateRows (rows : List ScheduleRow) : List ScheduleRow :=
  rows.filter (fun r => scoreGate r.score)

/-- Rows surviving both the score gate and the date parse (lines 267 and
277-278), with the parsed date and the goal columns attached; one element
per finished match (the MatchRecord stage of the pipeline). -/
def parsedRows (rows : List ScheduleRow) (year : Nat) :
    List (ScheduleRow × Nat × Nat × Nat) :=
  (gateRows rows).filterMap (fun r =>
    (parse_match_date r.matchDate year).map (fun d =>
      (r, d, (rowGoals r).1, (rowGoals r).2)))

/-- Match outcome 勝敗: win 勝, draw 分, loss 敗. -/
inductive Outcome where
  | win : Outcome
  | draw : Outcome
  | loss : Outcome
deriving DecidableEq

/-- One row of the per-team ledger (one perspective of one match), with
the columns of lines 286-298: 大会, 試合日 (parsed), チーム, 対戦相手,
勝敗, 得点, 失点, 得失差, 勝点. -/
structure LedgerEntry where
  taikai : String
  date : Nat
  team : String
  opponent : String
  outcome : Outcome
  tokuten : Nat
  shitten : Nat
  tokushitsusa : Int
  kachiten : Nat
deriving DecidableEq

/-- Ledger row extended with the cumulative columns 累積勝点,
累積得失点差, 累積総得点 of lines 305-307. -/
structure LedgerEntryCum extends LedgerEntry where
  cumKachiten : Nat
  cumTokushitsusa : Int
  cumTokuten : Nat
deriving DecidableEq

/-- Construction of one perspective row (lines 286-298): 得失差 is goals
for minus goals against, 勝敗 compares goals for and against, 勝点 is
3/1/0 by outcome. -/
def mkEntry (taikai : String) (date : Nat) (team opponent : String)
    (gf ga : Nat) : LedgerEntry :=
  { taikai := taikai, date := date, team := team, opponent := opponent,
    outcome := if gf > ga then Outcome.win
               else if gf = ga then Outcome.draw else Outcome.loss,
    tokuten := gf, shitten := ga,
    tokushitsusa := (gf : Int) - (ga : Int),
    kachiten := if gf > ga then 3 else if gf = ga then 1 else 0 }

/-- Home-perspective row of a parsed fixture (lines 286-291). -/
def mkHomeEntry (p : ScheduleRow × Nat × Nat × Nat) : LedgerEntry :=
  mkEntry p.1.taikai p.2.1 p.1.home p.1.away p.2.2.1 p.2.2.2

/-- Away-perspective row of a parsed fixture (lines 293-298): goals for
and against are swapped relative to the home perspective. -/
def mkAwayEntry (p : ScheduleRow × Nat × Nat × Nat) : LedgerEntry :=
  mkEntry p.1.taikai p.2.1 p.1.away p.1.home p.2.2.2 p.2.2.1

/-- The concatenated two-perspective ledger of line 300 (home block then
away block, `ignore_index=True`). -/
def rawLedger (rows : List ScheduleRow) (year : Nat) : List LedgerEntry :=
  (parsedRows rows year).map mkHomeEntry ++ (parsedRows rows year).map mkAwayEntry

/-- Insertion of an element into a sorted list, keeping it before later
elements that compare equal. -/
def insertSorted (le : α → α → Bool) (a : α) : List α → List α
  | [] => [a]
  | b :: l => if le a b then a :: b :: l else b :: insertSorted le a l

/-- Stable insertion sort.  This models the `sort_values(by=['試合日'],
ascending=True)` of line 303.  Note the divergence recorded at claim C5:
pandas' default sort kind is `'quicksort'` (numpy introsort), which does
not guarantee stability; the embedding fixes the stable order (same-date
rows keep input order) that the specification asserts. -/
def stableSortBy (le : α → α → Bool) : List α → List α
  | [] => []
  | a :: l => insertSorted le a (stableSortBy le l)

/-- Date comparison used for the ledger sort. -/
def dateLe (a b : LedgerEntry) : Bool :=
  a.date ≤ b.date

/-- Per-team cumulative sums of lines 305-307
(`groupby(['チーム']).cumsum()` over the date-sorted frame, grouping by
team name only — not by league): each row receives the sums of 勝点,
得失差 and 得点 over the rows up to and including it that carry the same
team.  `pre` is the list of already-processed rows. -/
def addCumFrom (pre : List LedgerEntry) : List LedgerEntry → List LedgerEntryCum
  | [] => []
  | e :: rest =>
    let seen := (pre ++ [e]).filter (fun p => p.team == e.team)
    { toLedgerEntry := e,
      cumKachiten := (seen.map (fun p => p.kachiten)).sum,
      cumTokushitsusa := (seen.map (fun p => p.tokushitsusa)).sum,
      cumTokuten := (seen.map (fun p => p.tokuten)).sum } ::
      addCumFrom (pre ++ [e]) rest

/-- Cumulative-column pass over the whole sorted ledger. -/
def addCum (l : List LedgerEntry) : List LedgerEntryCum :=
  addCumFrom [] l

/-- The full `create_point_aggregate_df` of lines 257-309: score gate,
goal parsing, date parsing and drop, home/away expansion, stable date
sort, per-team cumulative sums.  Empty or fully-filtered input yields the
empty ledger (the early returns of lines 260-262, 269-271 and
282-284). -/
def create_point_aggregate_df (rows : List ScheduleRow) (year : Nat) :
    List LedgerEntryCum :=
  addCum (stableSortBy dateLe (rawLedger rows year))

/-- The recent-form calculation of lines 324-333: filter the ledger to
the (league, team) pair, sort by date descending, take the first five
rows, sum their 勝点.  The window size 5 is hard-coded in the source
(`head(5)`); there is no window parameter. -/
def calculate_recent_form (df : List LedgerEntryCum) (team league : String) : Nat :=
  if df = [] then 0
  else
    let teamResults := df.filter (fun e => e.taikai == league && e.team == team)
    let recent5 := (stableSortBy (fun a b => b.date ≤ a.date) teamResults).take 5
    (recent5.map (fun e => e.kachiten)).sum

/-- Modelled from the spec (§4.3): the FormCalculator contract
`recent_form(ledger, team, league, window=5)` with an overridable window
parameter.  The source's `calculate_recent_form` has no such parameter;
this definition follows the spec's words for comparison (claim C9). -/
def recent_form_spec (df : List LedgerEntryCum) (team league : String)
    (window : Nat) : Nat :=
  if df = [] then 0
  else
    let teamResults := df.filter (fun e => e.taikai == league && e.team == team)
    let recent := (stableSortBy (fun a b => b.date ≤ a.date) teamResults).take window
    (recent.map (fun e => e.kachiten)).sum

/-- First-occurrence deduplication with an accumulator of already-seen
elements; `ukfGo [] l` models pandas `.unique()` (keeps first
occurrences in order). -/
def ukfGo [DecidableEq α] (seen : List α) : List α → List α
  | [] => []
  | a :: l => if a ∈ seen then ukfGo seen l else a :: ukfGo (a :: seen) l

/-- Ledger rows of the selected league (line 625,
`pointaggregate_df[pointaggregate_df['大会'] == selected_league]`).
The cumulative columns were computed on the unfiltered ledger. -/
def leagueSlice (df : List LedgerEntryCum) (league : String) : List LedgerEntryCum :=
  df.filter (fun e => e.taikai == league)

/-- Checkpoint dates of line 639
(`filtered_df_rank['試合日'].sort_values().unique()`): the distinct match
dates of the league slice in ascending order. -/
def allMatchDates (sl : List LedgerEntryCum) : List Nat :=
  ukfGo [] (stableSortBy (fun a b => a ≤ b) (sl.map (fun e => e.date)))

/-- Group keys of `groupby('チーム')` over a list of ledger rows: the
distinct team names in order of first appearance. -/
def teamsOf (sl : List LedgerEntryCum) : List String :=
  ukfGo [] (sl.map (fun e => e.team))

/-- Maximum of a list of naturals (0 on the empty list; every use is on a
nonempty group). -/
def maxNat (l : List Nat) : Nat :=
  l.foldr max 0

/-- Maximum of a nonempty list of integers (0 on the empty list; every
use is on a nonempty group). -/
def maxInt : List Int → Int
  | [] => 0
  | [x] => x
  | x :: xs => max x (maxInt xs)

/-- Per-team standing used by the rank chart: the result row of
`groupby('チーム')[['累積勝点', '累積得失点差', '累積総得点']].max()`
(line 649) for one team. -/
structure TeamStanding where
  team : String
  cumKachiten : Nat
  cumTokushitsusa : Int
  cumTokuten : Nat
deriving DecidableEq

/-- The per-checkpoint standings table of lines 645-649: filter the
league slice to rows dated at or before the checkpoint, then take the
column-wise maximum of the three cumulative columns per team. -/
def standingsAt (sl : List LedgerEntryCum) (cp : Nat) : List TeamStanding :=
  let upto := sl.filter (fun e => e.date ≤ cp)
  (teamsOf upto).map (fun t =>
    let es := upto.filter (fun e => e.team == t)
    { team := t,
      cumKachiten := maxNat (es.map (fun e => e.cumKachiten)),
      cumTokushitsusa := maxInt (es.map (fun e => e.cumTokushitsusa)),
      cumTokuten := maxNat (es.map (fun e => e.cumTokuten)) })

/-- The composite score of lines 652-656,
`累積勝点*1e9 + 累積得失点差*1e6 + 累積総得点`, modelled over `Int`
(every value arising for realistic inputs is an integer far below 2^53,
where the source's IEEE-double arithmetic is exact). -/
def weightedScore (t : TeamStanding) : Int :=
  (t.cumKachiten : Int) * 1000000000 + t.cumTokushitsusa * 1000000 +
    (t.cumTokuten : Int)

/-- Rank by `rank(method='min', ascending=False)` of lines 658-663: one
plus the number of standings with a strictly greater weighted score. -/
def rankOf (standings : List TeamStanding) (t : TeamStanding) : Nat :=
  1 + (standings.filter (fun u => weightedScore t < weightedScore u)).length

/-- The rank-over-time computation of the 順位変動グラフ branch (lines
639-666): for each checkpoint date of the league slice, the per-team
standings and their ranks. -/
def rankTimeline (df : List LedgerEntryCum) (league : String) :
    List (Nat × List (String × Nat)) :=
  let sl := leagueSlice df league
  (allMatchDates sl).map (fun cp =>
    (cp, (standingsAt sl cp).map (fun s => (s.team, rankOf (standingsAt sl cp) s))))

/-- Latest ledger entry of a team at or before a checkpoint, within a
league slice: the last row of the date-sorted slice belonging to the team
and dated at or before the checkpoint.  This renders the claim's notion
of the team's single latest entry as of a checkpoint (claim C1). -/
def latestEntryUpTo (sl : List LedgerEntryCum) (team : String) (cp : Nat) :
    Option LedgerEntryCum :=
  ((sl.filter (fun e => e.date ≤ cp)).filter (fun e => e.team == team)).getLast?

/-- Lexicographic standings order from the spec's words (§4.4 step 3):
points first, then goal difference, then goals-for, each as a plain
numeric field (claim C6 compares this with `weightedScore`). -/
def lexLt (a b : TeamStanding) : Prop :=
  a.cumKachiten < b.cumKachiten ∨
    (a.cumKachiten = b.cumKachiten ∧
      (a.cumTokushitsusa < b.cumTokushitsusa ∨
        (a.cumTokushitsusa = b.cumTokushitsusa ∧ a.cumTokuten < b.cumTokuten)))

instance (a b : TeamStanding) : Decidable (lexLt a b) := by
  unfold lexLt; infer_instance

/-- Concrete two-match history used by claims C1 and C3: 浦和レッズ wins
1-0 on 2025-03-01. -/
def testRow1 : ScheduleRow :=
  ⟨"J1", "25/03/01(土)", "浦和レッズ", "鹿島アントラーズ", "1-0"⟩

/-- Second match of the history: 浦和レッズ loses 0-5 a week later, so
its cumulative goal difference drops from +1 to −4. -/
def testRow2 : ScheduleRow :=
  ⟨"J1", "25/03/08(土)", "浦和レッズ", "柏レイソル", "0-5"⟩

/-- The claim C2 fixture row, with the scraped name columns passed
through `normalize_j_name` as `scrape_schedule_data` does (lines
213-218), and the raw date and score strings untouched (the pipeline
normalizes neither). -/
def c2Fixture : ScheduleRow :=
  ⟨normalize_j_name "明治安田J1リーグ", "03/02(日)",
   normalize_j_name "浦和", normalize_j_name "Ｆ東京", "2-1"⟩

/-- The same fixture with a YY/MM/DD date core of the kind
`parse_match_date` does accept. -/
def c2FixtureYY : ScheduleRow :=
  ⟨normalize_j_name "明治安田J1リーグ", "24/03/02(日)",
   normalize_j_name "浦和", normalize_j_name "Ｆ東京", "2-1"⟩

/-- A seven-match single-team ledger with points 3,3,0,1,3,0,1 in
chronological order (the worked example of claim C9); cumulative columns
are as `create_point_aggregate_df` would produce for this history. -/
def exampleFormLedger : List LedgerEntryCum :=
  [⟨⟨"J1", 20250301, "T", "O1", Outcome.win, 2, 0, 2, 3⟩, 3, 2, 2⟩,
   ⟨⟨"J1", 20250308, "T", "O2", Outcome.win, 1, 0, 1, 3⟩, 6, 3, 3⟩,
   ⟨⟨"J1", 20250315, "T", "O3", Outcome.loss, 0, 2, -2, 0⟩, 6, 1, 3⟩,
   ⟨⟨"J1", 20250322, "T", "O4", Outcome.draw, 1, 1, 0, 1⟩, 7, 1, 4⟩,
   ⟨⟨"J1", 20250329, "T", "O5", Outcome.win, 3, 1, 2, 3⟩, 10, 3, 7⟩,
   ⟨⟨"J1", 20250405, "T", "O6", Outcome.loss, 0, 1, -1, 0⟩, 10, 2, 7⟩,
   ⟨⟨"J1", 20250412, "T", "O7", Outcome.draw, 2, 2, 0, 1⟩, 11, 2, 9⟩]

/-- Occurrence of the substring F・C, the only pattern the manual
substitutions of line 152 actually rewrite. -/
def OccFdotC (l : List Char) : Prop :=
  ∃ u v, l = u ++ 'F' :: '・' :: 'C' :: v

theorem nfkcChar_eq_self (c : Char) (h0 : ¬ c = '　') (h1 : ¬ c = 'Ｊ')
    (h2 : ¬ c = 'Ｆ') (h3 : ¬ c = 'Ｃ') (h4 : ¬ c = 'Ｖ') (h5 : ¬ c = '（')
    (h6 : ¬ c = '）') (h7 : ¬ c = '０') (h8 : ¬ c = '１') (h9 : ¬ c = '２')
    (h10 : ¬ c = '３') (h11 : ¬ c = '４') (h12 : ¬ c = '５')
    (h13 : ¬ c = '６') (h14 : ¬ c = '７') (h15 : ¬ c = '８')
    (h16 : ¬ c = '９') : nfkcChar c = c := by
  unfold nfkcChar
  rw [if_neg h0, if_neg h1, if_neg h2, if_neg h3, if_neg h4, if_neg h5,
    if_neg h6, if_neg h7, if_neg h8, if_neg h9, if_neg h10, if_neg h11,
    if_neg h12, if_neg h13, if_neg h14, if_neg h15, if_neg h16]

theorem nfkcChar_idem (c : Char) : nfkcChar (nfkcChar c) = nfkcChar c := by
  by_cases h0 : c = '　'
  · subst h0; decide
  by_cases h1 : c = 'Ｊ'
  · subst h1; decide
  by_cases h2 : c = 'Ｆ'
  · subst h2; decide
  by_cases h3 : c = 'Ｃ'
  · subst h3; decide
  by_cases h4 : c = 'Ｖ'
  · subst h4; decide
  by_cases h5 : c = '（'
  · subst h5; decide
  by_cases h6 : c = '）'
  · subst h6; decide
  by_cases h7 : c = '０'
  · subst h7; decide
  by_cases h8 : c = '１'
  · subst h8; decide
  by_cases h9 : c = '２'
  · subst h9; decide
  by_cases h10 : c = '３'
  · subst h10; decide
  by_cases h11 : c = '４'
  · subst h11; decide
  by_cases h12 : c = '５'
  · subst h12; decide
  by_cases h13 : c = '６'
  · subst h13; decide
  by_cases h14 : c = '７'
  · subst h14; decide
  by_cases h15 : c = '８'
  · subst h15; decide
  by_cases h16 : c = '９'
  · subst h16; decide
  have hc := nfkcChar_eq_self c h0 h1 h2 h3 h4 h5 h6 h7 h8 h9 h10 h11 h12
    h13 h14 h15 h16
  rw [hc]
  exact hc

theorem replJ_eq_self (l : List Char) : replJ l = l := by
  induction l with
  | nil => rfl
  | cons c s ih =>
    rw [replJ, ih]
    split_ifs with h
    · rw [h]
    · rfl

theorem replFChalf_eq_self (l : List Char) : replFChalf l = l := by
  induction l using replFChalf.induct with
  | case1 => rfl
  | case2 c => rfl
  | case3 c d s h ih =>
    rw [replFChalf, if_pos h, ih, h.1, h.2]
  | case4 c d s h ih =>
    rw [replFChalf, if_neg h, ih]

theorem occFdotC_cons (c : Char) {l : List Char} (h : OccFdotC l) :
    OccFdotC (c :: l) := by
  obtain ⟨u, v, rfl⟩ := h
  exact ⟨c :: u, v, rfl⟩

theorem occFdotC_of_cons {c : Char} {l : List Char}
    (h : OccFdotC (c :: l)) (hhead : ¬ ∃ t, c :: l = 'F' :: '・' :: 'C' :: t) :
    OccFdotC l := by
  obtain ⟨u, v, he⟩ := h
  cases u with
  | nil => exact absurd ⟨v, he⟩ hhead
  | cons x u2 =>
    rw [List.cons_append] at he
    exact ⟨u2, v, (List.cons.injEq _ _ _ _ ▸ he).2⟩

theorem replFdotC_eq_self {l : List Char} (h : ¬ OccFdotC l) :
    replFdotC l = l := by
  induction l using replFdotC.induct with
  | case1 => rfl
  | case2 c => rfl
  | case3 c d => rfl
  | case4 c d e s hcond ih =>
    obtain ⟨rfl, rfl, rfl⟩ := hcond
    exact absurd ⟨[], s, rfl⟩ h
  | case5 c d e s hcond ih =>
    rw [replFdotC, if_neg hcond, ih (fun ho => h (occFdotC_cons c ho))]

theorem head_replFdotC (c : Char) (l : List Char) :
    ∃ t, replFdotC (c :: l) = c :: t := by
  match l with
  | [] => exact ⟨[], rfl⟩
  | [d] => exact ⟨[d], rfl⟩
  | d :: e :: s =>
    by_cases hcond : c = 'F' ∧ d = '・' ∧ e = 'C'
    · obtain ⟨rfl, rfl, rfl⟩ := hcond
      exact ⟨'C' :: replFdotC s, by rw [replFdotC, if_pos ⟨rfl, rfl, rfl⟩]⟩
    · exact ⟨replFdotC (d :: e :: s), by rw [replFdotC, if_neg hcond]⟩

theorem replFdotC_cons_of_ne (c : Char) (l : List Char) (h : ¬ c = 'F') :
    replFdotC (c :: l) = c :: replFdotC l := by
  match l with
  | [] => rfl
  | [d] => rfl
  | d :: e :: s =>
    rw [replFdotC, if_neg (fun hc => h hc.1)]

theorem replFdotC_not_occ (l : List Char) : ¬ OccFdotC (replFdotC l) := by
  induction l using replFdotC.induct with
  | case1 =>
    rintro ⟨u, v, he⟩
    have := congrArg List.length he
    simp [replFdotC, List.length_append] at this
    omega
  | case2 c =>
    rintro ⟨u, v, he⟩
    have := congrArg List.length he
    simp [replFdotC, List.length_append] at this
    omega
  | case3 c d =>
    rintro ⟨u, v, he⟩
    have := congrArg List.length he
    simp [replFdotC, List.length_append] at this
    omega
  | case4 c d e s hcond ih =>
    obtain ⟨rfl, rfl, rfl⟩ := hcond
    rw [replFdotC, if_pos ⟨rfl, rfl, rfl⟩]
    rintro ⟨u, v, he⟩
    match u with
    | [] => simp at he
    | [x] => simp at he
    | x :: y :: u2 =>
      simp only [List.cons_append, List.cons.injEq] at he
      exact ih ⟨u2, v, he.2.2⟩
  | case5 c d e s hcond ih =>
    rw [replFdotC, if_neg hcond]
    intro hocc
    by_cases hhead : ∃ t, c :: replFdotC (d :: e :: s) = 'F' :: '・' :: 'C' :: t
    · obtain ⟨t, ht⟩ := hhead
      simp only [List.cons.injEq] at ht
      obtain ⟨rfl, hrest⟩ := ht
      obtain ⟨t1, ht1⟩ := head_replFdotC d (e :: s)
      rw [ht1] at hrest
      simp only [List.cons.injEq] at hrest
      obtain ⟨rfl, hrest2⟩ := hrest
      have hd : ¬ ('・' : Char) = 'F' := by decide
      rw [replFdotC_cons_of_ne _ _ hd] at ht1
      simp only [List.cons.injEq, true_and] at ht1
      obtain ⟨t2, ht2⟩ := head_replFdotC e s
      rw [ht2] at ht1
      rw [← ht1] at hrest2
      simp only [List.cons.injEq] at hrest2
      exact hcond ⟨rfl, rfl, hrest2.1⟩
    · exact ih (occFdotC_of_cons hocc hhead)

theorem stripTrailing_eq_take (l : List Char) :
    ∃ k, stripTrailing l = l.take k := by
  induction l with
  | nil => exact ⟨0, rfl⟩
  | cons c rest ih =>
    obtain ⟨k, hk⟩ := ih
    by_cases hc : (stripTrailing rest = [] && isSpaceChar c) = true
    · refine ⟨0, ?_⟩
      rw [stripTrailing]
      simp only [hc, if_true]
      rfl
    · refine ⟨k + 1, ?_⟩
      rw [Bool.not_eq_true] at hc
      rw [stripTrailing]
      simp only [hc, Bool.false_eq_true, if_false]
      rw [List.take_succ_cons, hk]

theorem occFdotC_take {l : List Char} {k : Nat}
    (h : OccFdotC (l.take k)) : OccFdotC l := by
  obtain ⟨u, v, he⟩ := h
  refine ⟨u, v ++ l.drop k, ?_⟩
  conv_lhs => rw [← List.take_append_drop k l]
  rw [he]
  simp [List.append_assoc]

theorem occFdotC_stripTrailing {l : List Char}
    (h : OccFdotC (stripTrailing l)) : OccFdotC l := by
  obtain ⟨k, hk⟩ := stripTrailing_eq_take l
  rw [hk] at h
  exact occFdotC_take h

theorem occFdotC_dropWhile {p : Char → Bool} {l : List Char}
    (h : OccFdotC (l.dropWhile p)) : OccFdotC l := by
  induction l with
  | nil => simpa [List.dropWhile] using h
  | cons c rest ih =>
    rw [List.dropWhile_cons] at h
    by_cases hp : p c = true
    · rw [if_pos hp] at h
      exact occFdotC_cons c (ih h)
    · rw [if_neg hp] at h
      exact h

theorem occFdotC_pyStrip {l : List Char} (h : OccFdotC (pyStrip l)) :
    OccFdotC l :=
  occFdotC_dropWhile (occFdotC_stripTrailing h)

theorem occFdotC_replIdeoSpace {l : List Char}
    (h : OccFdotC (replIdeoSpace l)) : OccFdotC l := by
  induction l with
  | nil =>
    obtain ⟨u, v, he⟩ := h
    have := congrArg List.length he
    simp [replIdeoSpace, List.length_append] at this
    omega
  | cons c rest ih =>
    rw [replIdeoSpace] at h
    by_cases hhead :
        ∃ t, (if c = '　' then ' ' else c) :: replIdeoSpace rest =
          'F' :: '・' :: 'C' :: t
    · obtain ⟨t, ht⟩ := hhead
      simp only [List.cons.injEq] at ht
      obtain ⟨hc, hrest⟩ := ht
      have hcF : c = 'F' := by
        by_cases hi : c = '　'
        · rw [if_pos hi] at hc
          exact absurd hc (by decide)
        · rwa [if_neg hi] at hc
      cases rest with
      | nil => simp [replIdeoSpace] at hrest
      | cons d rest2 =>
        rw [replIdeoSpace] at hrest
        simp only [List.cons.injEq] at hrest
        obtain ⟨hd, hrest2⟩ := hrest
        have hdDot : d = '・' := by
          by_cases hi : d = '　'
          · rw [if_pos hi] at hd
            exact absurd hd (by decide)
          · rwa [if_neg hi] at hd
        cases rest2 with
        | nil => simp [replIdeoSpace] at hrest2
        | cons e rest3 =>
          rw [replIdeoSpace] at hrest2
          simp only [List.cons.injEq] at hrest2
          obtain ⟨he, _⟩ := hrest2
          have heC : e = 'C' := by
            by_cases hi : e = '　'
            · rw [if_pos hi] at he
              exact absurd he (by decide)
            · rwa [if_neg hi] at he
          exact ⟨[], rest3, by rw [hcF, hdDot, heC]; rfl⟩
    · exact occFdotC_cons c (ih (occFdotC_of_cons h hhead))

theorem mem_stripTrailing {a : Char} {l : List Char}
    (h : a ∈ stripTrailing l) : a ∈ l := by
  obtain ⟨k, hk⟩ := stripTrailing_eq_take l
  rw [hk] at h
  exact (List.take_sublist k l).subset h

theorem mem_pyStrip {a : Char} {l : List Char} (h : a ∈ pyStrip l) : a ∈ l :=
  (List.dropWhile_sublist isSpaceChar).subset (mem_stripTrailing h)

theorem mem_replIdeoSpace {a : Char} {l : List Char}
    (h : a ∈ replIdeoSpace l) : a ∈ l ∨ a = ' ' := by
  induction l with
  | nil => simp [replIdeoSpace] at h
  | cons c s ih =>
    rw [replIdeoSpace, List.mem_cons] at h
    rcases h with h | h
    · by_cases hc : c = '　'
      · rw [if_pos hc] at h
        exact Or.inr h
      · rw [if_neg hc] at h
        exact Or.inl (h ▸ List.mem_cons_self c s)
    · rcases ih h with h2 | h2
      · exact Or.inl (List.mem_cons_of_mem c h2)
      · exact Or.inr h2

theorem mem_replFdotC {a : Char} {l : List Char} (h : a ∈ replFdotC l) :
    a ∈ l ∨ a = 'F' ∨ a = 'C' := by
  induction l using replFdotC.induct with
  | case1 => simp [replFdotC] at h
  | case2 c => exact Or.inl h
  | case3 c d => exact Or.inl h
  | case4 c d e s hcond ih =>
    rw [replFdotC, if_pos hcond] at h
    rw [List.mem_cons, List.mem_cons] at h
    rcases h with h | h | h
    · exact Or.inr (Or.inl h)
    · exact Or.inr (Or.inr h)
    · rcases ih h with h2 | h2
      · exact Or.inl (by simp [h2])
      · exact Or.inr h2
  | case5 c d e s hcond ih =>
    rw [replFdotC, if_neg hcond, List.mem_cons] at h
    rcases h with h | h
    · exact Or.inl (by simp [h])
    · rcases ih h with h2 | h2
      · exact Or.inl (List.mem_cons_of_mem c h2)
      · exact Or.inr h2

theorem map_eq_self_of_fixed {f : Char → Char} {l : List Char}
    (h : ∀ a ∈ l, f a = a) : l.map f = l := by
  induction l with
  | nil => rfl
  | cons c s ih =>
    rw [List.map_cons, h c (List.mem_cons_self c s),
      ih (fun a ha => h a (List.mem_cons_of_mem c ha))]

theorem replIdeoSpace_eq_self {l : List Char} (h : '　' ∉ l) :
    replIdeoSpace l = l := by
  induction l with
  | nil => rfl
  | cons c s ih =>
    have hc : ¬ c = '　' := fun hc => h (by rw [← hc]; exact List.mem_cons_self c s)
    rw [replIdeoSpace, if_neg hc, ih (fun hm => h (List.mem_cons_of_mem c hm))]

theorem foldName_fixed {l : List Char} :
    ∀ a ∈ foldName l, nfkcChar a = a := by
  intro a ha
  unfold foldName at ha
  have h1 := mem_pyStrip ha
  rcases mem_replIdeoSpace h1 with h2 | h2
  · rcases mem_replFdotC h2 with h3 | h3 | h3
    · rw [replFChalf_eq_self, replJ_eq_self] at h3
      obtain ⟨b, _, hb⟩ := List.mem_map.mp h3
      rw [← hb]
      exact nfkcChar_idem b
    · rw [h3]; rfl
    · rw [h3]; rfl
  · rw [h2]; rfl

theorem stripTrailing_idem (l : List Char) :
    stripTrailing (stripTrailing l) = stripTrailing l := by
  induction l with
  | nil => rfl
  | cons c rest ih =>
    by_cases hc : (decide (stripTrailing rest = []) && isSpaceChar c) = true
    · have h1 : stripTrailing (c :: rest) = [] := by
        rw [stripTrailing]
        simp only [hc, if_true]
      rw [h1]
      rfl
    · rw [Bool.not_eq_true] at hc
      have h1 : stripTrailing (c :: rest) = c :: stripTrailing rest := by
        rw [stripTrailing]
        simp only [hc, Bool.false_eq_true, if_false]
      rw [h1, stripTrailing]
      simp only [ih, hc, Bool.false_eq_true, if_false]

theorem dropWhile_shape (p : Char → Bool) (l : List Char) :
    l.dropWhile p = [] ∨
      ∃ c t, l.dropWhile p = c :: t ∧ p c = false := by
  induction l with
  | nil => exact Or.inl rfl
  | cons c s ih =>
    rw [List.dropWhile_cons]
    by_cases hp : p c = true
    · rw [if_pos hp]
      exact ih
    · rw [if_neg hp]
      rw [Bool.not_eq_true] at hp
      exact Or.inr ⟨c, s, rfl, hp⟩

theorem pyStrip_idem (l : List Char) : pyStrip (pyStrip l) = pyStrip l := by
  unfold pyStrip
  have hdw : (stripTrailing (l.dropWhile isSpaceChar)).dropWhile isSpaceChar =
      stripTrailing (l.dropWhile isSpaceChar) := by
    obtain ⟨k, hk⟩ := stripTrailing_eq_take (l.dropWhile isSpaceChar)
    rcases dropWhile_shape isSpaceChar l with hsh | ⟨c, t, hsh, hpc⟩
    · rw [hsh]
      rfl
    · rw [hsh] at hk ⊢
      cases k with
      | zero => rw [hk]; rfl
      | succ k2 =>
        rw [List.take_succ_cons] at hk
        rw [hk, List.dropWhile_cons, hpc]
        simp only [Bool.false_eq_true, if_false]
  rw [hdw, stripTrailing_idem]

theorem foldName_idem (l : List Char) : foldName (foldName l) = foldName l := by
  conv_lhs => rw [foldName]
  rw [map_eq_self_of_fixed (foldName_fixed (l := l)), replJ_eq_self,
    replFChalf_eq_self]
  have hnot : ¬ OccFdotC (foldName l) := by
    intro h
    unfold foldName at h
    exact replFdotC_not_occ _ (occFdotC_replIdeoSpace (occFdotC_pyStrip h))
  rw [replFdotC_eq_self hnot]
  have hideo : '　' ∉ foldName l := by
    intro hm
    have := foldName_fixed _ hm
    exact absurd this (by decide)
  rw [replIdeoSpace_eq_self hideo]
  conv_lhs => rw [foldName]
  exact pyStrip_idem _

set_option maxRecDepth 4096 in
theorem norm_league_values :
    ∀ v ∈ LEAGUE_NAME_MAPPING.map Prod.snd, normalize_j_name v = v := by
  decide

set_option maxRecDepth 8192 in
theorem norm_team_values :
    ∀ v ∈ TEAM_NAME_MAPPING.map Prod.snd, normalize_j_name v = v := by
  decide

theorem mem_snd_of_lookup {α β : Type} [BEq α] {l : List (α × β)} {k : α}
    {v : β} (h : l.lookup k = some v) : v ∈ l.map Prod.snd := by
  induction l with
  | nil => simp [List.lookup] at h
  | cons p t ih =>
    rw [List.lookup] at h
    cases hk : (k == p.1) with
    | true =>
      rw [hk] at h
      have h2 : p.2 = v := Option.some.inj h
      simp [← h2]
    | false =>
      rw [hk] at h
      have h2 : List.lookup k t = some v := h
      simp only [List.map_cons, List.mem_cons]
      exact Or.inr (ih h2)

theorem foldStr_idem (s : String) : foldStr (foldStr s) = foldStr s := by
  unfold foldStr
  exact congrArg String.mk (foldName_idem s.data)

/-- Claim C4: name normalization is idempotent and total.  Main conjunct:
`normalize_j_name` applied twice equals one application, for every string.
Second and third conjuncts: every canonical league value and every
canonical team value re-normalizes to itself.  Fourth conjunct: unmapped
input is returned unchanged after generic character folding.  Totality is
structural in the embedding: `normalize_j_name` is a total function. -/
theorem C4_normalize_idempotent_total :
    (∀ s : String, normalize_j_name (normalize_j_name s) = normalize_j_name s) ∧
    (∀ v ∈ LEAGUE_NAME_MAPPING.map Prod.snd, normalize_j_name v = v) ∧
    (∀ v ∈ TEAM_NAME_MAPPING.map Prod.snd, normalize_j_name v = v) ∧
    (∀ s : String, (LEAGUE_NAME_MAPPING.lookup (foldStr s)).isNone →
      (TEAM_NAME_MAPPING.lookup (foldStr s)).isNone →
      normalize_j_name s = foldStr s) := by
  have hplain : ∀ s : String,
      (LEAGUE_NAME_MAPPING.lookup (foldStr s)) = none →
      (TEAM_NAME_MAPPING.lookup (foldStr s)) = none →
      normalize_j_name s = foldStr s := by
    intro s h1 h2
    simp only [normalize_j_name, h1, h2, Option.getD_none]
  refine ⟨?_, norm_league_values, norm_team_values, ?_⟩
  · intro s
    cases hL : LEAGUE_NAME_MAPPING.lookup (foldStr s) with
    | some v =>
      have h1 : normalize_j_name s = v := by
        simp only [normalize_j_name, hL]
      rw [h1]
      exact norm_league_values v (mem_snd_of_lookup hL)
    | none =>
      cases hT : TEAM_NAME_MAPPING.lookup (foldStr s) with
      | some v =>
        have h1 : normalize_j_name s = v := by
          simp only [normalize_j_name, hL, hT, Option.getD_some]
        rw [h1]
        exact norm_team_values v (mem_snd_of_lookup hT)
      | none =>
        rw [hplain s hL hT]
        have h3 := hplain (foldStr s) (by rw [foldStr_idem]; exact hL)
          (by rw [foldStr_idem]; exact hT)
        rw [foldStr_idem] at h3
        exact h3
  · intro s h1 h2
    exact hplain s (Option.isNone_iff_eq_none.mp h1)
      (Option.isNone_iff_eq_none.mp h2)

/-- Witness for C4: the theorem applied at concrete inputs — the alias
浦和, the canonical league value J1, the canonical team value 浦和レッズ,
and an unmapped string, which passes through as its own fold. -/
theorem C4_normalize_idempotent_total_witness :
    normalize_j_name (normalize_j_name "浦和") = normalize_j_name "浦和" ∧
    normalize_j_name "J1" = "J1" ∧
    normalize_j_name "浦和レッズ" = "浦和レッズ" ∧
    normalize_j_name "未知のチーム" = foldStr "未知のチーム" :=
  ⟨C4_normalize_idempotent_total.1 "浦和",
   C4_normalize_idempotent_total.2.1 "J1" (by decide),
   C4_normalize_idempotent_total.2.2.1 "浦和レッズ" (by decide),
   C4_normalize_idempotent_total.2.2.2 "未知のチーム" (by decide) (by decide)⟩

/-- Counterexample to claim C2 as stated: for the claimed input fixture
(names normalized as the scraper does, date 03/02(日), score 2-1, season
year 2024) the built ledger is empty — it does not contain the claimed
two entries, because `parse_match_date` never accepts a bare MM/DD date
core. -/
theorem C2_counterexample :
    create_point_aggregate_df [c2Fixture] 2024 = [] ∧
    (create_point_aggregate_df [c2Fixture] 2024).length ≠ 2 := by
  decide

/-- Claim C2 as amended: the league and team names normalize exactly as
claimed, but the date regex of `parse_match_date` requires a
`\d{1,2}/\d{1,2}/\d{1,2}` core, so the bare MM/DD date is rejected and
the fixture yields an empty ledger; with a YY/MM/DD date core
(24/03/02(日)) whose two-digit year matches the season year, the same
fixture yields exactly the two claimed entries: 浦和レッズ with a win,
3 points and goal difference +1, and FC東京 with a loss, 0 points and
goal difference −1. -/
theorem C2_amended :
    normalize_j_name "明治安田J1リーグ" = "J1" ∧
    normalize_j_name "浦和" = "浦和レッズ" ∧
    normalize_j_name "Ｆ東京" = "FC東京" ∧
    parse_match_date "03/02(日)" 2024 = none ∧
    create_point_aggregate_df [c2Fixture] 2024 = [] ∧
    parse_match_date "24/03/02(日)" 2024 = some 20240302 ∧
    (create_point_aggregate_df [c2FixtureYY] 2024).map
      (fun e => (e.team, e.outcome, e.kachiten, e.tokushitsusa)) =
      [("浦和レッズ", Outcome.win, 3, 1), ("FC東京", Outcome.loss, 0, -1)] := by
  decide

theorem length_insertSorted {α : Type} (le : α → α → Bool) (a : α)
    (l : List α) : (insertSorted le a l).length = l.length + 1 := by
  induction l with
  | nil => rfl
  | cons b t ih =>
    rw [insertSorted]
    by_cases h : le a b = true
    · rw [if_pos h]
      rfl
    · rw [if_neg h, List.length_cons, ih, List.length_cons]

theorem length_stableSortBy {α : Type} (le : α → α → Bool) (l : List α) :
    (stableSortBy le l).length = l.length := by
  induction l with
  | nil => rfl
  | cons a t ih =>
    rw [stableSortBy, length_insertSorted, ih, List.length_cons]

theorem length_addCumFrom (pre l : List LedgerEntry) :
    (addCumFrom pre l).length = l.length := by
  induction l generalizing pre with
  | nil => rfl
  | cons e rest ih =>
    simp only [addCumFrom, List.length_cons, ih]

/-- Claim C3: every surviving fixture row yields exactly two ledger
entries (so the ledger holds 2 × the surviving-row count), the home and
away perspectives have swapped goals-for/goals-against, and their points
sum to 3 for a decisive result and to 2 for a draw. -/
theorem C3_two_entries_per_match (rows : List ScheduleRow) (year : Nat) :
    (create_point_aggregate_df rows year).length =
      2 * (parsedRows rows year).length ∧
    ∀ p ∈ parsedRows rows year,
      mkHomeEntry p ∈ rawLedger rows year ∧
      mkAwayEntry p ∈ rawLedger rows year ∧
      (mkHomeEntry p).tokuten = (mkAwayEntry p).shitten ∧
      (mkHomeEntry p).shitten = (mkAwayEntry p).tokuten ∧
      ((mkHomeEntry p).tokuten ≠ (mkHomeEntry p).shitten →
        (mkHomeEntry p).kachiten + (mkAwayEntry p).kachiten = 3) ∧
      ((mkHomeEntry p).tokuten = (mkHomeEntry p).shitten →
        (mkHomeEntry p).kachiten + (mkAwayEntry p).kachiten = 2) := by
  constructor
  · unfold create_point_aggregate_df addCum
    rw [length_addCumFrom, length_stableSortBy]
    unfold rawLedger
    rw [List.length_append, List.length_map, List.length_map]
    omega
  · intro p hp
    refine ⟨List.mem_append_left _ (List.mem_map_of_mem _ hp),
      List.mem_append_right _ (List.mem_map_of_mem _ hp), rfl, rfl, ?_, ?_⟩
    · intro hne
      obtain ⟨r, d, gh, ga⟩ := p
      simp only [mkHomeEntry, mkAwayEntry, mkEntry] at hne ⊢
      rcases Nat.lt_trichotomy gh ga with h | h | h
      · rw [if_neg (by omega), if_neg (by omega), if_pos (by omega)]
      · exact absurd h hne
      · rw [if_pos h, if_neg (by omega), if_neg (by omega)]
    · intro heq
      obtain ⟨r, d, gh, ga⟩ := p
      simp only [mkHomeEntry, mkAwayEntry, mkEntry] at heq ⊢
      rw [if_neg (by omega), if_pos heq, if_neg (by omega), if_pos heq.symm]

/-- Witness for C3: the theorem applied to the concrete finished match
浦和レッズ 1-0 鹿島アントラーズ of 2025-03-01. -/
theorem C3_two_entries_per_match_witness :
    (mkHomeEntry (testRow1, 20250301, 1, 0)).kachiten +
      (mkAwayEntry (testRow1, 20250301, 1, 0)).kachiten = 3 :=
  ((C3_two_entries_per_match [testRow1] 2025).2 (testRow1, 20250301, 1, 0)
    (by decide)).2.2.2.2.1 (by decide)

/-- Claim C10: the three computations degrade to empty/zero results on
empty or fully-unparseable input instead of raising: the ledger builder
returns an empty ledger on an empty table and on a table in which no row
survives the score/date filters, recent form is 0 on an empty ledger,
and the rank timeline of an empty ledger is empty. -/
theorem C10_empty_input_degrades :
    (∀ year : Nat, create_point_aggregate_df [] year = []) ∧
    (∀ (rows : List ScheduleRow) (year : Nat), parsedRows rows year = [] →
      create_point_aggregate_df rows year = []) ∧
    (∀ team league : String, calculate_recent_form [] team league = 0) ∧
    (∀ league : String, rankTimeline [] league = []) := by
  refine ⟨fun _ => rfl, ?_, fun _ _ => rfl, fun _ => rfl⟩
  intro rows year h
  unfold create_point_aggregate_df rawLedger
  rw [h]
  rfl

/-- Witness for C10: a one-row table whose score is the placeholder
dash has no surviving row, so its ledger is empty. -/
theorem C10_empty_input_degrades_witness :
    create_point_aggregate_df [⟨"J1", "03/02(日)", "浦和レッズ", "FC東京", "-"⟩]
      2024 = [] :=
  C10_empty_input_degrades.2.1 _ 2024 (by decide)

theorem addCumFrom_cum_ge (l : List LedgerEntry) :
    ∀ (pre : List LedgerEntry) (b : LedgerEntryCum), b ∈ addCumFrom pre l →
      ((pre.filter (fun p => p.team == b.team)).map
        (fun p => p.kachiten)).sum ≤ b.cumKachiten ∧
      ((pre.filter (fun p => p.team == b.team)).map
        (fun p => p.tokuten)).sum ≤ b.cumTokuten := by
  induction l with
  | nil =>
    intro pre b hb
    simp [addCumFrom] at hb
  | cons e rest ih =>
    intro pre b hb
    simp only [addCumFrom] at hb
    rcases List.mem_cons.mp hb with hb1 | hb2
    · subst hb1
      constructor
      · simp only [List.filter_append, List.map_append, List.sum_append]
        exact Nat.le_add_right _ _
      · simp only [List.filter_append, List.map_append, List.sum_append]
        exact Nat.le_add_right _ _
    · have h2 := ih (pre ++ [e]) b hb2
      constructor
      · refine le_trans ?_ h2.1
        rw [List.filter_append, List.map_append, List.sum_append]
        exact Nat.le_add_right _ _
      · refine le_trans ?_ h2.2
        rw [List.filter_append, List.map_append, List.sum_append]
        exact Nat.le_add_right _ _

theorem addCumFrom_pairwise (l pre : List LedgerEntry) :
    List.Pairwise (fun a b : LedgerEntryCum => a.team = b.team →
      a.cumKachiten ≤ b.cumKachiten ∧ a.cumTokuten ≤ b.cumTokuten)
      (addCumFrom pre l) := by
  induction l generalizing pre with
  | nil => exact List.Pairwise.nil
  | cons e rest ih =>
    simp only [addCumFrom]
    refine List.Pairwise.cons ?_ (ih (pre ++ [e]))
    intro b hb hteam
    have h2 := addCumFrom_cum_ge rest (pre ++ [e]) b hb
    constructor
    · have h3 := h2.1
      rw [← hteam] at h3
      exact h3
    · have h3 := h2.2
      rw [← hteam] at h3
      exact h3

theorem ledger_pairwise (rows : List ScheduleRow) (year : Nat) :
    List.Pairwise (fun a b : LedgerEntryCum => a.team = b.team →
      a.cumKachiten ≤ b.cumKachiten ∧ a.cumTokuten ≤ b.cumTokuten)
      (create_point_aggregate_df rows year) :=
  addCumFrom_pairwise _ []

theorem maxNat_eq_getLast {α : Type} (g : α → Nat) :
    ∀ (l : List α) (e : α), l.getLast? = some e →
      List.Pairwise (fun a b => g a ≤ g b) l → maxNat (l.map g) = g e := by
  intro l
  induction l with
  | nil => intro e he _; simp at he
  | cons x t ih =>
    intro e he hp
    cases t with
    | nil =>
      simp only [List.getLast?_singleton, Option.some.injEq] at he
      subst he
      simp [maxNat]
    | cons y t2 =>
      rw [List.getLast?_cons_cons] at he
      have ihv := ih e he (List.Pairwise.of_cons hp)
      rw [List.map_cons, maxNat, List.foldr_cons]
      rw [maxNat] at ihv
      rw [ihv]
      have hxe : g x ≤ g e :=
        List.rel_of_pairwise_cons hp
          (List.mem_of_mem_getLast? (by rw [he]; rfl))
      omega

theorem maxInt_cons_cons (a b : Int) (t : List Int) :
    maxInt (a :: b :: t) = max a (maxInt (b :: t)) := rfl

theorem maxInt_eq_getLast {α : Type} (g : α → Int) :
    ∀ (l : List α) (e : α), l.getLast? = some e →
      List.Pairwise (fun a b => g a ≤ g b) l → maxInt (l.map g) = g e := by
  intro l
  induction l with
  | nil => intro e he _; simp at he
  | cons x t ih =>
    intro e he hp
    cases t with
    | nil =>
      simp only [List.getLast?_singleton, Option.some.injEq] at he
      subst he
      simp [maxInt]
    | cons y t2 =>
      rw [List.getLast?_cons_cons] at he
      have ihv := ih e he (List.Pairwise.of_cons hp)
      rw [List.map_cons, List.map_cons, maxInt_cons_cons, ← List.map_cons]
      rw [ihv]
      have hxe : g x ≤ g e :=
        List.rel_of_pairwise_cons hp
          (List.mem_of_mem_getLast? (by rw [he]; rfl))
      omega

theorem le_maxInt_of_mem : ∀ {l : List Int} {a : Int}, a ∈ l → a ≤ maxInt l := by
  intro l
  induction l with
  | nil => intro a ha; simp at ha
  | cons x t ih =>
    intro a ha
    cases t with
    | nil =>
      simp only [List.mem_singleton] at ha
      subst ha
      simp [maxInt]
    | cons y t2 =>
      rw [maxInt_cons_cons]
      rcases List.mem_cons.mp ha with rfl | h2
      · exact le_max_left _ _
      · exact le_trans (ih h2) (le_max_right _ _)

theorem mem_ukfGo {α : Type} [DecidableEq α] (l : List α) :
    ∀ (seen : List α) (a : α), a ∈ ukfGo seen l ↔ (a ∈ l ∧ a ∉ seen) := by
  induction l with
  | nil => intro seen a; simp [ukfGo]
  | cons x t ih =>
    intro seen a
    rw [ukfGo]
    by_cases hx : x ∈ seen
    · rw [if_pos hx, ih]
      constructor
      · rintro ⟨h1, h2⟩
        exact ⟨List.mem_cons_of_mem x h1, h2⟩
      · rintro ⟨h1, h2⟩
        rcases List.mem_cons.mp h1 with rfl | h3
        · exact absurd hx h2
        · exact ⟨h3, h2⟩
    · rw [if_neg hx]
      constructor
      · intro h1
        rcases List.mem_cons.mp h1 with rfl | h2
        · exact ⟨List.mem_cons_self a t, hx⟩
        · obtain ⟨h3, h4⟩ := (ih (x :: seen) a).mp h2
          exact ⟨List.mem_cons_of_mem x h3,
            fun hs => h4 (List.mem_cons_of_mem x hs)⟩
      · rintro ⟨h1, h2⟩
        rcases List.mem_cons.mp h1 with rfl | h3
        · exact List.mem_cons_self a _
        · by_cases hax : a = x
          · subst hax
            exact List.mem_cons_self a _
          · refine List.mem_cons_of_mem x ((ih (x :: seen) a).mpr ⟨h3, ?_⟩)
            intro hs
            rcases List.mem_cons.mp hs with h5 | h5
            · exact hax h5
            · exact h2 h5

/-- Counterexample to claim C1 as stated: in a two-match history (浦和
レッズ wins 1-0, then loses 0-5), the standing used for ranking at the
second checkpoint carries cumulative goal difference 1 — the column-wise
`groupby('チーム').max()` of line 649 — while the team's latest ledger
entry at that checkpoint has cumulative goal difference −4, so the
standing is not the latest entry's triple. -/
theorem C1_counterexample :
    ((standingsAt (leagueSlice (create_point_aggregate_df
        [testRow1, testRow2] 2025) "J1") 20250308).find?
      (fun s => s.team == "浦和レッズ")).map (fun s => s.cumTokushitsusa) =
      some 1 ∧
    (latestEntryUpTo (leagueSlice (create_point_aggregate_df
        [testRow1, testRow2] 2025) "J1") "浦和レッズ" 20250308).map
      (fun x => x.cumTokushitsusa) = some (-4) ∧
    (1 : Int) ≠ -4 := by
  decide

/-- Claim C1 as amended: for every ledger, league, checkpoint and team
with at least one entry at or before the checkpoint, the standing used
for ranking agrees with the team's latest such entry in its cumulative
points and cumulative goals-for (those columns are nondecreasing along a
team's rows, so their column-wise maximum is the latest value), but its
goal-difference component is only an upper bound for the latest entry's
cumulative goal difference: it is the running maximum and can come from
an earlier entry. -/
theorem C1_amended (rows : List ScheduleRow) (year : Nat)
    (league team : String) (cp : Nat) (e : LedgerEntryCum)
    (h : latestEntryUpTo (leagueSlice (create_point_aggregate_df rows year)
      league) team cp = some e) :
    ∃ s ∈ standingsAt (leagueSlice (create_point_aggregate_df rows year)
      league) cp,
      s.team = team ∧ s.cumKachiten = e.cumKachiten ∧
      s.cumTokuten = e.cumTokuten ∧
      e.cumTokushitsusa ≤ s.cumTokushitsusa := by
  unfold latestEntryUpTo at h
  have hmem : e ∈ ((leagueSlice (create_point_aggregate_df rows year)
      league).filter (fun x => x.date ≤ cp)).filter
      (fun x => x.team == team) :=
    List.mem_of_mem_getLast? (by rw [h]; rfl)
  have hup := List.mem_filter.mp hmem
  have hteam : e.team = team := by simpa using hup.2
  have htm : team ∈ teamsOf ((leagueSlice (create_point_aggregate_df rows
      year) league).filter (fun x => x.date ≤ cp)) := by
    unfold teamsOf
    rw [mem_ukfGo]
    refine ⟨?_, List.not_mem_nil team⟩
    exact hteam ▸ List.mem_map_of_mem (fun x => x.team) hup.1
  have hpw := List.Pairwise.filter (fun x => x.team == team)
    (List.Pairwise.filter (fun x => x.date ≤ cp)
      (List.Pairwise.filter (fun x => x.taikai == league)
        (ledger_pairwise rows year)))
  have hall : ∀ x ∈ ((leagueSlice (create_point_aggregate_df rows year)
      league).filter (fun x => x.date ≤ cp)).filter
      (fun x => x.team == team), x.team = team :=
    fun x hx => by simpa using (List.mem_filter.mp hx).2
  have hchainK : List.Pairwise
      (fun a b : LedgerEntryCum => a.cumKachiten ≤ b.cumKachiten)
      (((leagueSlice (create_point_aggregate_df rows year)
        league).filter (fun x => x.date ≤ cp)).filter
        (fun x => x.team == team)) :=
    hpw.imp_of_mem (fun ha hb hr =>
      (hr (by rw [hall _ ha, hall _ hb])).1)
  have hchainT : List.Pairwise
      (fun a b : LedgerEntryCum => a.cumTokuten ≤ b.cumTokuten)
      (((leagueSlice (create_point_aggregate_df rows year)
        league).filter (fun x => x.date ≤ cp)).filter
        (fun x => x.team == team)) :=
    hpw.imp_of_mem (fun ha hb hr =>
      (hr (by rw [hall _ ha, hall _ hb])).2)
  refine ⟨_, List.mem_map_of_mem _ htm, rfl, ?_, ?_, ?_⟩
  · exact maxNat_eq_getLast (fun x => x.cumKachiten) _ e h hchainK
  · exact maxNat_eq_getLast (fun x => x.cumTokuten) _ e h hchainT
  · exact le_maxInt_of_mem
      (List.mem_map_of_mem (fun x => x.cumTokushitsusa) hmem)

/-- Witness for C1 as amended: the two-match 浦和レッズ history at the
second checkpoint; its latest entry has cumulative values
(3, −4, 1), and the ranked standing carries points 3, goals-for 1 and a
goal difference at least −4 (in fact 1). -/
theorem C1_amended_witness :
    ∃ s ∈ standingsAt (leagueSlice (create_point_aggregate_df
      [testRow1, testRow2] 2025) "J1") 20250308,
      s.team = "浦和レッズ" ∧ s.cumKachiten = 3 ∧ s.cumTokuten = 1 ∧
      (-4 : Int) ≤ s.cumTokushitsusa :=
  C1_amended [testRow1, testRow2] 2025 "J1" "浦和レッズ" 20250308
    ⟨⟨"J1", 20250308, "浦和レッズ", "柏レイソル", Outcome.loss, 0, 5, -5, 0⟩,
      3, -4, 1⟩ (by decide)

/-- Counterexample to claim C6 as stated: with goal differences of
absolute value under 1000 (here −999 and +999, both within the claimed
bound), the composite score and the lexicographic order disagree — the
team with more points gets the smaller weighted score, because the goal
difference gap of 1998 × 10^6 crosses the 10^9 points spacing. -/
theorem C6_counterexample :
    (10 : Int) - 9 = 1 ∧
    (⟨"A", 10, -999, 0⟩ : TeamStanding).cumTokushitsusa.natAbs < 1000 ∧
    (⟨"B", 9, 999, 0⟩ : TeamStanding).cumTokushitsusa.natAbs < 1000 ∧
    weightedScore ⟨"A", 10, -999, 0⟩ < weightedScore ⟨"B", 9, 999, 0⟩ ∧
    lexLt ⟨"B", 9, 999, 0⟩ ⟨"A", 10, -999, 0⟩ ∧
    ¬ lexLt ⟨"A", 10, -999, 0⟩ ⟨"B", 9, 999, 0⟩ := by
  decide

/-- Claim C6 as amended: the composite score
`points*1e9 + goaldiff*1e6 + goalsfor` orders standings exactly as the
lexicographic (points, goal difference, goals-for) comparison provided
the cumulative goal differences stay within ±499 and goals-for within
0..999 (the all-integer values are far below 2^53, so the source's
IEEE-double arithmetic computes them exactly); the bound |GD| < 1000 of
the claim is not sufficient, |GD| ≤ 499 is. -/
theorem C6_amended (a b : TeamStanding)
    (ha : a.cumTokushitsusa.natAbs ≤ 499)
    (hb : b.cumTokushitsusa.natAbs ≤ 499)
    (ha2 : a.cumTokuten ≤ 999) (hb2 : b.cumTokuten ≤ 999) :
    (weightedScore a < weightedScore b ↔ lexLt a b) ∧
    (weightedScore a = weightedScore b ↔
      (a.cumKachiten = b.cumKachiten ∧
       a.cumTokushitsusa = b.cumTokushitsusa ∧
       a.cumTokuten = b.cumTokuten)) := by
  unfold weightedScore lexLt
  constructor
  · constructor <;> intro h2 <;> omega
  · constructor <;> intro h2 <;> omega

/-- Witness for C6 as amended: two concrete standings within the amended
bounds, ordered the same way by both definitions. -/
theorem C6_amended_witness :
    (weightedScore ⟨"A", 10, -499, 0⟩ < weightedScore ⟨"B", 11, 499, 999⟩ ↔
      lexLt ⟨"A", 10, -499, 0⟩ ⟨"B", 11, 499, 999⟩) ∧
    (weightedScore ⟨"A", 10, -499, 0⟩ = weightedScore ⟨"B", 11, 499, 999⟩ ↔
      ((⟨"A", 10, -499, 0⟩ : TeamStanding).cumKachiten =
        (⟨"B", 11, 499, 999⟩ : TeamStanding).cumKachiten ∧
       (⟨"A", 10, -499, 0⟩ : TeamStanding).cumTokushitsusa =
        (⟨"B", 11, 499, 999⟩ : TeamStanding).cumTokushitsusa ∧
       (⟨"A", 10, -499, 0⟩ : TeamStanding).cumTokuten =
        (⟨"B", 11, 499, 999⟩ : TeamStanding).cumTokuten)) :=
  C6_amended ⟨"A", 10, -499, 0⟩ ⟨"B", 11, 499, 999⟩ (by decide) (by decide)
    (by decide) (by decide)

/-- Claim C7: the score filter is a hard gate.  The placeholder dash, a
spaced score and a TBD marker produce no surviving row (and hence no
ledger entries), while 2-1 — also with the long-vowel dash variant ２ー１
uses, here 2ー1 — produces exactly one surviving row and two ledger
entries. -/
theorem C7_score_gate :
    parsedRows [⟨"J1", "25/03/01(土)", "浦和レッズ", "FC東京", "-"⟩] 2025 = [] ∧
    create_point_aggregate_df
      [⟨"J1", "25/03/01(土)", "浦和レッズ", "FC東京", "-"⟩] 2025 = [] ∧
    parsedRows [⟨"J1", "25/03/01(土)", "浦和レッズ", "FC東京", "2 - 1"⟩] 2025 = [] ∧
    parsedRows [⟨"J1", "25/03/01(土)", "浦和レッズ", "FC東京", "TBD"⟩] 2025 = [] ∧
    (parsedRows [⟨"J1", "25/03/01(土)", "浦和レッズ", "FC東京", "2-1"⟩] 2025).length = 1 ∧
    (parsedRows [⟨"J1", "25/03/01(土)", "浦和レッズ", "FC東京", "2ー1"⟩] 2025).length = 1 ∧
    (create_point_aggregate_df
      [⟨"J1", "25/03/01(土)", "浦和レッズ", "FC東京", "2-1"⟩] 2025).length = 2 := by
  decide

/-- Counterexample to claim C8 as stated: the full-width digit score
２-１ passes the `\d+-\d+` gate (Python's `\d` matches any Unicode
decimal digit), but `pd.to_numeric` cannot parse the full-width digits,
so the fill-with-0 fallback fires and the ledger records a fabricated
0-0 draw instead of the written 2-1. -/
theorem C8_counterexample :
    scoreGate "２-１" = true ∧
    splitScore (cleanScore "２-１") = some (['２'], ['１']) ∧
    toNumericNat ['２'] = none ∧
    rowGoals ⟨"J1", "25/03/01(土)", "浦和レッズ", "FC東京", "２-１"⟩ = (0, 0) ∧
    (create_point_aggregate_df
      [⟨"J1", "25/03/01(土)", "浦和レッズ", "FC東京", "２-１"⟩] 2025).map
      (fun e => (e.tokuten, e.shitten)) = [(0, 0), (0, 0)] := by
  decide

theorem mem_replChoon {a : Char} {l : List Char} (h : a ∈ replChoon l) :
    a ∈ l ∨ a = '-' := by
  induction l with
  | nil => simp [replChoon] at h
  | cons c s ih =>
    rw [replChoon, List.mem_cons] at h
    rcases h with h | h
    · by_cases hc : c = 'ー'
      · rw [if_pos hc] at h
        exact Or.inr h
      · rw [if_neg hc] at h
        exact Or.inl (h ▸ List.mem_cons_self c s)
    · rcases ih h with h2 | h2
      · exact Or.inl (List.mem_cons_of_mem c h2)
      · exact Or.inr h2

theorem splitScore_inv {l d1 d2 : List Char}
    (h : splitScore l = some (d1, d2)) :
    d1 = l.takeWhile isPyDigit ∧ d1 ≠ [] ∧ d2 ≠ [] ∧
    d2.all isPyDigit = true ∧ l.dropWhile isPyDigit = '-' :: d2 := by
  unfold splitScore at h
  split at h
  next d2x heq =>
    have h2 : (if (decide (List.takeWhile isPyDigit l ≠ []) &&
        decide (d2x ≠ []) && d2x.all isPyDigit) = true then
        some (List.takeWhile isPyDigit l, d2x) else none) = some (d1, d2) := h
    split at h2
    next hcond =>
      simp only [Option.some.injEq, Prod.mk.injEq] at h2
      obtain ⟨h3, h4⟩ := h2
      subst h3
      subst h4
      simp only [Bool.and_eq_true, decide_eq_true_eq] at hcond
      exact ⟨rfl, hcond.1.1, hcond.1.2, hcond.2, heq⟩
    next => simp at h2
  next => simp at h

theorem pyDigit_ascii_isDigit {c : Char} (hpy : isPyDigit c = true)
    (hascii : c.toNat ≤ 127) : c.isDigit = true := by
  by_cases hd : c.isDigit = true
  · exact hd
  · rw [isPyDigit, Bool.or_eq_true] at hpy
    rcases hpy with h | h
    · exact h
    · simp only [Bool.and_eq_true, decide_eq_true_eq] at h
      omega

/-- Claim C8 as amended: for every row whose score string is ASCII, the
gate guarantees both halves of the split parse successfully, the
fill-with-0 fallback is unreachable, and the recorded goals are exactly
the integers written in the score; the universal claim fails only for
non-ASCII decimal digits, which `\d` admits but `to_numeric` coerces
(see the counterexample). -/
theorem C8_amended (r : ScheduleRow) (d1 d2 : List Char)
    (hascii : ∀ c ∈ r.score.data, c.toNat ≤ 127)
    (hsplit : splitScore (cleanScore r.score) = some (d1, d2)) :
    toNumericNat d1 = some (digitsToNat d1) ∧
    toNumericNat d2 = some (digitsToNat d2) ∧
    rowGoals r = (digitsToNat d1, digitsToNat d2) := by
  obtain ⟨hd1, hne1, hne2, hall2, hdrop⟩ := splitScore_inv hsplit
  have hclean : ∀ c ∈ cleanScore r.score, c.toNat ≤ 127 := by
    intro c hc
    rcases mem_replChoon (mem_pyStrip hc) with h1 | h1
    · exact hascii c h1
    · rw [h1]
      decide
  have hall1 : d1.all Char.isDigit = true := by
    rw [List.all_eq_true]
    intro c hc
    refine pyDigit_ascii_isDigit (List.mem_takeWhile_imp (hd1 ▸ hc)) ?_
    exact hclean c ((List.takeWhile_sublist _).subset (hd1 ▸ hc))
  have hall2d : d2.all Char.isDigit = true := by
    rw [List.all_eq_true]
    intro c hc
    have hmem : c ∈ (cleanScore r.score).dropWhile isPyDigit := by
      rw [hdrop]
      exact List.mem_cons_of_mem _ hc
    refine pyDigit_ascii_isDigit ?_ (hclean c ((List.dropWhile_sublist _).subset hmem))
    exact (List.all_eq_true.mp hall2) c hc
  have ht1 : toNumericNat d1 = some (digitsToNat d1) := by
    unfold toNumericNat
    rw [if_pos (by simp [hne1, hall1])]
  have ht2 : toNumericNat d2 = some (digitsToNat d2) := by
    unfold toNumericNat
    rw [if_pos (by simp [hne2, hall2d])]
  refine ⟨ht1, ht2, ?_⟩
  unfold rowGoals
  rw [hsplit]
  show ((toNumericNat d1).getD 0, (toNumericNat d2).getD 0) =
    (digitsToNat d1, digitsToNat d2)
  rw [ht1, ht2]
  rfl

/-- Witness for C8 as amended: the ASCII score 2-1, whose two halves
parse to 2 and 1 and are recorded as-is. -/
theorem C8_amended_witness :
    toNumericNat ['2'] = some (digitsToNat ['2']) ∧
    toNumericNat ['1'] = some (digitsToNat ['1']) ∧
    rowGoals ⟨"J1", "25/03/01(土)", "浦和レッズ", "FC東京", "2-1"⟩ =
      (digitsToNat ['2'], digitsToNat ['1']) :=
  C8_amended ⟨"J1", "25/03/01(土)", "浦和レッズ", "FC東京", "2-1"⟩ ['2'] ['1']
    (by decide) (by decide)

/-- Claim C9: `calculate_recent_form` filters to the (league, team)
pair, sorts by date descending and sums the first five points — it
coincides with the spec's windowed form calculator at window 5, and on
the worked seven-match example (points 3,3,0,1,3,0,1 in chronological
order) it returns 0+1+3+0+1 = 5, and 0 on an empty ledger.  The window,
however, is hard-coded: the source function takes no window parameter,
so the spec's `recent_form(..., window=2)` (which would return 1 here)
has no counterpart in the code. -/
theorem C9_recent_form_fixed_window :
    (∀ (df : List LedgerEntryCum) (team league : String),
      calculate_recent_form df team league = recent_form_spec df team league 5) ∧
    calculate_recent_form exampleFormLedger "T" "J1" = 5 ∧
    (∀ team league : String, calculate_recent_form [] team league = 0) ∧
    recent_form_spec exampleFormLedger "T" "J1" 2 = 1 :=
  ⟨fun _ _ _ => rfl, by decide, fun _ _ => rfl, by decide⟩
